import Mathlib

/-!
Shallow embedding of the geometric distortion engine of the
"as-the-plane-flies" visualization, together with proofs of the
specification's claims about it.

Embedded sources:
  * `src/js/algorithms/mds.js` (`MDS.sanitize`, `MDS.computeRadialPositions`)
  * `src/js/algorithms/meshDeformer.js` (`MeshDeformer.createMesh`,
    `deformMesh`, `interpolatePosition`, `transformPoint`,
    `barycentricCoords`)
  * `src/js/config.js` (the `CONFIG.rubberSheet` constants)

Modelling conventions.  JavaScript numbers that the code only ever uses
while finite are modelled as real numbers.  Matrix entries, which the code
explicitly tests with `isFinite`, are modelled as `Option ℝ`: `some t` is a
finite number, `none` is the non-finite sentinel (`Infinity`/`NaN`) used
for missing routes.  `Math.max(...xs)` over a possibly empty list is
modelled as `jsMax : List ℝ → Option ℝ`, where `none` plays the role of
the `-Infinity` that the JS spread form returns on an empty list; the one
place where the code can consume such a `-Infinity` (the `maxTime` of a
row without positive finite entries) is commented at its use site.
-/

namespace AsThePlaneFlies

/-- A geographic input position, with the `geoX`/`geoY` fields carried by
the airport position objects that `mds.js` reads. -/
structure GeoPos where
  geoX : ℝ
  geoY : ℝ

/-- A plain output point `{x, y}` in screen-plane units. -/
structure Pt where
  x : ℝ
  y : ℝ

instance : Inhabited Pt := ⟨⟨0, 0⟩⟩

/-- JS `Math.hypot(dx, dy)`. -/
noncomputable def hypot (dx dy : ℝ) : ℝ :=
  Real.sqrt (dx * dx + dy * dy)

/-- JS `Math.atan2(y, x)`: the polar angle, in `(-π, π]`, of the vector
`(x, y)`, modelled as the argument of the complex number `x + y i`. -/
noncomputable def atan2 (y x : ℝ) : ℝ :=
  Complex.arg ⟨x, y⟩

/-- A matrix entry as seen by the JS code: `some t` for a finite number,
`none` for the non-finite sentinel of a missing route. -/
abbrev JsNum := Option ℝ

/-- JS `Math.max(...xs)` on a list of (finite) numbers; `none` stands for
the `-Infinity` returned on an empty list. -/
def jsMax : List ℝ → Option ℝ
  | [] => none
  | x :: xs =>
    match jsMax xs with
    | none => some x
    | some m => some (max x m)

/-- The dampening constant of `computeRadialPositions`
(`const dampening = 0.6`): 0 = no distortion, 1 = full distortion. -/
noncomputable def dampening : ℝ := 0.6

/-- The damped radial distance of `computeRadialPositions`: from the time
ratio it forms `distortionFactor = 1 + (timeRatio - 1) * dampening` and
scales the geographic distance by it (`newDist = geoDist * distortionFactor`). -/
noncomputable def dampedDistance (geoDist timeRatio : ℝ) : ℝ :=
  geoDist * (1 + (timeRatio - 1) * dampening)

/-- Embedding of `MDS.computeRadialPositions(travelTimes, geoPositions,
originIndex, viewport)` from `src/js/algorithms/mds.js` (the `viewport`
parameter is unused by the source body and omitted).

The JS `geoPositions.map((pos, i) => ...)` is rendered as a map over the
index range, with `pos` recovered by indexing.  Out-of-range JS indexing
yields `undefined`, for which `.getD` defaults are supplied: the default
`none` for `timesFromOrigin[i]` is exact (`isFinite(undefined)` is false),
and the remaining defaults are only reachable for out-of-range
`originIndex`, where the JS code would throw on `origin.geoX`.

In the branch computing `timeRatio`, the JS code evaluates
`travelTime / (geoDist * (maxTime / maxGeoDist))` on possibly-`-Infinity`
maxima.  `maxGeoDist` cannot be `-Infinity` there (the branch has
`geoDist >= 1`, so the filtered distance list is non-empty), and when
`maxTime` is `-Infinity` (`jsMax ... = none`) the JS quotient
`travelTime / -Infinity` of the finite `travelTime` is `-0`, so the ratio
is modelled as `0` in that case. -/
noncomputable def computeRadialPositions (travelTimes : List (List JsNum))
    (geoPositions : List GeoPos) (originIndex : ℕ) : List Pt :=
  let origin := geoPositions.getD originIndex ⟨0, 0⟩
  let originX := origin.geoX
  let originY := origin.geoY
  let timesFromOrigin := travelTimes.getD originIndex []
  let geoDistances := geoPositions.map fun p =>
    hypot (p.geoX - originX) (p.geoY - originY)
  let maxGeoDist := jsMax (geoDistances.filter fun d => 0 < d)
  let maxTime := jsMax ((timesFromOrigin.filterMap id).filter fun t => 0 < t)
  (List.range geoPositions.length).map fun i =>
    let pos := geoPositions.getD i ⟨0, 0⟩
    if i = originIndex then
      ⟨originX, originY⟩
    else
      let geoDist := geoDistances.getD i 0
      match timesFromOrigin.getD i none with
      | none => ⟨pos.geoX, pos.geoY⟩
      | some travelTime =>
        if geoDist < 1 then ⟨pos.geoX, pos.geoY⟩
        else
          let dx := pos.geoX - originX
          let dy := pos.geoY - originY
          let angle := atan2 dy dx
          let timeRatio :=
            match maxTime, maxGeoDist with
            | some maxT, some maxD =>
              let avgTimePerDist := maxT / maxD
              let expectedTime := geoDist * avgTimePerDist
              travelTime / expectedTime
            | _, _ => 0
          let newDist := dampedDistance geoDist timeRatio
          ⟨originX + Real.cos angle * newDist,
           originY + Real.sin angle * newDist⟩

/-- The inner accumulation of `MDS.sanitize`: fold a row into the running
maximum, taking a value only when it is finite and exceeds the
accumulator (`if (isFinite(val) && val > maxFinite) maxFinite = val`). -/
noncomputable def maxFiniteStep (m : ℝ) (v : JsNum) : ℝ :=
  match v with
  | some x => if m < x then x else m
  | none => m

/-- The `maxFinite` accumulator of `MDS.sanitize`, which starts at `0` and
folds every entry of the matrix through `maxFiniteStep`. -/
noncomputable def maxFiniteOf (distances : List (List JsNum)) : ℝ :=
  distances.foldl (fun acc row => row.foldl maxFiniteStep acc) 0

/-- Embedding of `MDS.sanitize(distances)` from `src/js/algorithms/mds.js`:
replace every non-finite entry with `1.5 ×` the maximum finite value found
in the whole matrix, leaving finite entries unchanged. -/
noncomputable def sanitize (distances : List (List JsNum)) : List (List ℝ) :=
  let maxFinite := maxFiniteOf distances
  let fallback := maxFinite * 1.5
  distances.map fun row => row.map fun v => v.getD fallback

/-- The finite entries of a matrix, row by row, used to state what the
`maxFinite` fold of `sanitize` computes. -/
def finiteEntries (distances : List (List JsNum)) : List ℝ :=
  distances.foldr (fun row acc => row.filterMap id ++ acc) []

/-- The kind tag carried in the `type` field of a mesh point:
`'airport'` control point, fixed `'boundary'` point along the viewport
edges, or interior `'grid'` point. -/
inductive MeshPointType
  | airport
  | boundary
  | grid
  deriving DecidableEq

/-- A point of the deformation mesh built by `MeshDeformer.createMesh`.
The source sets the `index` and `code` fields only on airport points; on
boundary and grid points they are filled with `0` and `""` here. -/
structure MeshPoint where
  x : ℝ
  y : ℝ
  type : MeshPointType
  index : ℕ
  code : String

instance : Inhabited MeshPoint := ⟨⟨0, 0, .grid, 0, ""⟩⟩

/-- An airport input to `createMesh`: a position `{x, y}` with its code. -/
structure Airport where
  x : ℝ
  y : ℝ
  code : String

/-- The `{width, height}` bounds of the map.  The viewport dimensions are
integer pixel counts (`CONFIG.width = 975`, `CONFIG.height = 610`), so the
boundary and grid sampling loops of `createMesh` are modelled over `ℕ`. -/
structure Bounds where
  width : ℕ
  height : ℕ

/-- The `CONFIG.rubberSheet` settings of `src/js/config.js`. -/
structure RubberSheetConfig where
  gridSpacing : ℕ
  boundarySampling : ℕ
  interpolationPower : ℝ

namespace CONFIG

/-- Values of `CONFIG.rubberSheet` from `src/js/config.js`:
`gridSpacing = 40`, `boundarySampling = 25`, `interpolationPower = 2.5`. -/
noncomputable def rubberSheet : RubberSheetConfig :=
  ⟨40, 25, 2.5⟩

end CONFIG

/-- The mesh produced by `createMesh`: the ordered point list, the
triangle index triples of the Delaunay triangulation (the flat
`delaunay.triangles` array of the external `d3.Delaunay` library, read
three entries at a time), and the airport count. -/
structure Mesh where
  points : List MeshPoint
  triangles : List (ℕ × ℕ × ℕ)
  airportCount : ℕ

/-- The fixed points of a `createMesh` mesh that follow the airport
points: the four boundary edges sampled every
`CONFIG.rubberSheet.boundarySampling` pixels and the interior grid at
`CONFIG.rubberSheet.gridSpacing`, filtered by the optional landmass
containment predicate (factored out of `createMesh` below). -/
noncomputable def boundaryGridPoints (bounds : Bounds)
    (isInsideUS : Option (ℝ → ℝ → Bool)) : List MeshPoint :=
  let spacing := CONFIG.rubberSheet.boundarySampling
  let topXs := (List.range (bounds.width / spacing + 1)).map fun k => k * spacing
  let topEdge : List MeshPoint := topXs.map fun gx =>
    ⟨(gx : ℝ), 0, .boundary, 0, ""⟩
  let bottomEdge : List MeshPoint := topXs.map fun gx =>
    ⟨(gx : ℝ), (bounds.height : ℝ), .boundary, 0, ""⟩
  let sideYs := (List.range ((bounds.height - 1) / spacing)).map fun k =>
    (k + 1) * spacing
  let leftEdge : List MeshPoint := sideYs.map fun gy =>
    ⟨0, (gy : ℝ), .boundary, 0, ""⟩
  let rightEdge : List MeshPoint := sideYs.map fun gy =>
    ⟨(bounds.width : ℝ), (gy : ℝ), .boundary, 0, ""⟩
  let gridSpacing := CONFIG.rubberSheet.gridSpacing
  let gridXs := (List.range ((bounds.width - 1) / gridSpacing)).map fun k =>
    (k + 1) * gridSpacing
  let gridYs := (List.range ((bounds.height - 1) / gridSpacing)).map fun k =>
    (k + 1) * gridSpacing
  let gridPoints : List MeshPoint := gridXs.flatMap fun gx =>
    gridYs.filterMap fun gy =>
      match isInsideUS with
      | none => some ⟨(gx : ℝ), (gy : ℝ), .grid, 0, ""⟩
      | some inUS =>
        if inUS (gx : ℝ) (gy : ℝ) then some ⟨(gx : ℝ), (gy : ℝ), .grid, 0, ""⟩
        else none
  topEdge ++ bottomEdge ++ leftEdge ++ rightEdge ++ gridPoints

/-- Embedding of `MeshDeformer.createMesh(airports, bounds, isInsideUS)`
from `src/js/algorithms/meshDeformer.js`.

The JS `for (let x = 0; x <= bounds.width; x += spacing)` loops are
rendered as maps over `List.range` with the matching iteration counts
(the `CONFIG.rubberSheet` spacings are positive, so the loops terminate).
The optional `isInsideUS` containment predicate mirrors the JS
`!isInsideUS || isInsideUS(x, y)` null check.  `d3.Delaunay.from` is an
external library collaborator and is passed in as the `delaunayFrom`
parameter producing the triangle index triples. -/
noncomputable def createMesh (airports : List Airport) (bounds : Bounds)
    (isInsideUS : Option (ℝ → ℝ → Bool))
    (delaunayFrom : List MeshPoint → List (ℕ × ℕ × ℕ)) : Mesh :=
  let airportPoints : List MeshPoint := airports.enum.map fun ia =>
    ⟨ia.2.x, ia.2.y, .airport, ia.1, ia.2.code⟩
  let points := airportPoints ++ boundaryGridPoints bounds isInsideUS
  ⟨points, delaunayFrom points, airports.length⟩

/-- The accumulation loop of `MeshDeformer.interpolatePosition`: walk the
control points (original paired with target), returning a target outright
when the query point is within distance `1` of its original
(`if (dist < 1) return targets[i]`), and otherwise accumulating the
inverse-distance weighted sums that are divided out at the end. -/
noncomputable def interpolateLoop (power : ℝ) (point : Pt) :
    List (Pt × Pt) → ℝ → ℝ → ℝ → Pt
  | [], sumWeightX, sumWeightY, sumWeight =>
    ⟨sumWeightX / sumWeight, sumWeightY / sumWeight⟩
  | pair :: rest, sumWeightX, sumWeightY, sumWeight =>
    let dist := hypot (pair.1.x - point.x) (pair.1.y - point.y)
    if dist < 1 then ⟨pair.2.x, pair.2.y⟩
    else
      let weight := 1 / dist ^ power
      let dispX := pair.2.x - pair.1.x
      let dispY := pair.2.y - pair.1.y
      interpolateLoop power point rest (sumWeightX + weight * (point.x + dispX))
        (sumWeightY + weight * (point.y + dispY)) (sumWeight + weight)

/-- Embedding of `MeshDeformer.interpolatePosition(point, originals,
targets, power)` from `src/js/algorithms/meshDeformer.js`.  The JS loop
runs over the indices of `originals` and reads `targets[i]` at the same
index; callers pass arrays of equal length, which the `zip` renders. -/
noncomputable def interpolatePosition (point : Pt) (originals targets : List Pt)
    (power : ℝ) : Pt :=
  interpolateLoop power point (originals.zip targets) 0 0 0

/-- Embedding of `MeshDeformer.deformMesh(mesh, airportTargets,
airportOriginals)` from `src/js/algorithms/meshDeformer.js`: airport
points move to their targets, boundary points stay fixed, grid points are
interpolated from the airport displacements. -/
noncomputable def deformMesh (mesh : Mesh)
    (airportTargets airportOriginals : List Pt) : List Pt :=
  let power := CONFIG.rubberSheet.interpolationPower
  mesh.points.map fun point =>
    match point.type with
    | .airport => airportTargets.getD point.index ⟨0, 0⟩
    | .boundary => ⟨point.x, point.y⟩
    | .grid => interpolatePosition ⟨point.x, point.y⟩ airportOriginals
        airportTargets power

/-- The `{u, v, w}` barycentric coordinates object. -/
structure BaryCoords where
  u : ℝ
  v : ℝ
  w : ℝ

/-- Embedding of `MeshDeformer.barycentricCoords(px, py, p0, p1, p2)` from
`src/js/algorithms/meshDeformer.js`.

For a degenerate triangle the JS denominator `dot00 * dot11 - dot01 * dot01`
is `0` and `invDenom = 1 / 0 = Infinity`; both coordinate numerators vanish
exactly whenever the denominator does (lemma
`barycentric_degenerate_numerators` below), so the JS results are
`0 * Infinity = NaN` for `w` and `v` and `1 - NaN - NaN = NaN` for `u`, and
every `>= 0` comparison on them in the caller is false.  This non-finite
outcome is modelled by returning `none`. -/
noncomputable def barycentricCoords (px py : ℝ) (p0 p1 p2 : Pt) :
    Option BaryCoords :=
  let v0x := p2.x - p0.x
  let v0y := p2.y - p0.y
  let v1x := p1.x - p0.x
  let v1y := p1.y - p0.y
  let v2x := px - p0.x
  let v2y := py - p0.y
  let dot00 := v0x * v0x + v0y * v0y
  let dot01 := v0x * v1x + v0y * v1y
  let dot02 := v0x * v2x + v0y * v2y
  let dot11 := v1x * v1x + v1y * v1y
  let dot12 := v1x * v2x + v1y * v2y
  let denom := dot00 * dot11 - dot01 * dot01
  if denom = 0 then none
  else
    let invDenom := 1 / denom
    let w := (dot11 * dot02 - dot01 * dot12) * invDenom
    let v := (dot00 * dot12 - dot01 * dot02) * invDenom
    some ⟨1 - v - w, v, w⟩

/-- The triangle scan of `MeshDeformer.transformPoint`: walk the flat
`delaunay.triangles` triples; for the first triangle whose barycentric
coordinates are all `>= 0`, interpolate the deformed vertex positions;
otherwise continue (a `none` from `barycentricCoords` is the degenerate
case whose NaN coordinates fail all three JS comparisons). -/
noncomputable def findTriangleTransform (px py : ℝ) (mesh : Mesh)
    (deformedPositions : List Pt) : List (ℕ × ℕ × ℕ) → Option Pt
  | [] => none
  | t :: rest =>
    let p0 := mesh.points.getD t.1 default
    let p1 := mesh.points.getD t.2.1 default
    let p2 := mesh.points.getD t.2.2 default
    match barycentricCoords px py ⟨p0.x, p0.y⟩ ⟨p1.x, p1.y⟩ ⟨p2.x, p2.y⟩ with
    | some bary =>
      if 0 ≤ bary.u ∧ 0 ≤ bary.v ∧ 0 ≤ bary.w then
        let d0 := deformedPositions.getD t.1 ⟨0, 0⟩
        let d1 := deformedPositions.getD t.2.1 ⟨0, 0⟩
        let d2 := deformedPositions.getD t.2.2 ⟨0, 0⟩
        some ⟨bary.u * d0.x + bary.v * d1.x + bary.w * d2.x,
              bary.u * d0.y + bary.v * d1.y + bary.w * d2.y⟩
      else findTriangleTransform px py mesh deformedPositions rest
    | none => findTriangleTransform px py mesh deformedPositions rest

/-- Embedding of `MeshDeformer.transformPoint(x, y, mesh,
originalPositions, deformedPositions)` from
`src/js/algorithms/meshDeformer.js`: scan the triangulation for a
containing triangle and interpolate barycentrically; when none is found,
fall back to inverse-distance interpolation against the airport control
points of the mesh and the first `airportCount` deformed positions
(`deformedPositions.slice(0, mesh.airportCount)`).

The source also calls `mesh.delaunay.find(x, y)` twice and discards both
results (pure queries into the external library); the
`originalPositions` parameter is likewise never read by the source body. -/
noncomputable def transformPoint (px py : ℝ) (mesh : Mesh)
    (originalPositions deformedPositions : List Pt) : Pt :=
  match findTriangleTransform px py mesh deformedPositions mesh.triangles with
  | some p => p
  | none =>
    interpolatePosition ⟨px, py⟩
      ((mesh.points.filter fun p => p.type = MeshPointType.airport).map
        fun p => ⟨p.x, p.y⟩)
      (deformedPositions.take mesh.airportCount)
      CONFIG.rubberSheet.interpolationPower

/-! ### Helper lemmas -/

theorem jsMax_mem : ∀ {l : List ℝ} {m : ℝ}, jsMax l = some m → m ∈ l := by
  intro l
  induction l with
  | nil => intro m h; simp [jsMax] at h
  | cons x xs ih =>
    intro m h
    rw [jsMax] at h
    cases hxs : jsMax xs with
    | none =>
      rw [hxs] at h
      exact (Option.some_inj.mp h) ▸ List.mem_cons_self x xs
    | some k =>
      rw [hxs] at h
      have hm : m = max x k := (Option.some_inj.mp h).symm
      rcases max_choice x k with hc | hc
      · rw [hm, hc]; exact List.mem_cons_self x xs
      · rw [hm, hc]; exact List.mem_cons_of_mem x (ih hxs)

theorem jsMax_eq_none : ∀ {l : List ℝ}, jsMax l = none ↔ l = [] := by
  intro l
  cases l with
  | nil => simp [jsMax]
  | cons x xs =>
    rw [jsMax]
    cases jsMax xs <;> simp

theorem jsMax_exists {l : List ℝ} (h : l ≠ []) : ∃ m, jsMax l = some m := by
  cases l with
  | nil => exact absurd rfl h
  | cons x xs =>
    rw [jsMax]
    cases jsMax xs with
    | none => exact ⟨x, rfl⟩
    | some k => exact ⟨max x k, rfl⟩

theorem le_jsMax : ∀ {l : List ℝ} {x m : ℝ}, x ∈ l → jsMax l = some m → x ≤ m := by
  intro l
  induction l with
  | nil => intro x m hx; exact absurd hx (List.not_mem_nil x)
  | cons a as ih =>
    intro x m hx h
    rw [jsMax] at h
    cases has : jsMax as with
    | none =>
      rw [has] at h
      have hm : m = a := (Option.some_inj.mp h).symm
      have hnil : as = [] := jsMax_eq_none.mp has
      subst hnil
      rcases List.mem_cons.mp hx with hxa | hxn
      · rw [hm, hxa]
      · exact absurd hxn (List.not_mem_nil x)
    | some k =>
      rw [has] at h
      have hm : m = max a k := (Option.some_inj.mp h).symm
      rcases List.mem_cons.mp hx with hxa | hxn
      · rw [hm, hxa]; exact le_max_left a k
      · rw [hm]; exact le_trans (ih hxn has) (le_max_right a k)

/-- Evaluation of the active (distorting) branch of
`computeRadialPositions`: for a non-origin point with finite travel time
and geographic distance at least `1`, the output is the origin plus the
damped radial distance along the preserved polar angle, where the time
ratio (abstracted here as `R`) is determined by the row and distance
maxima. -/
theorem radial_active (travelTimes : List (List JsNum))
    (geoPositions : List GeoPos) (originIndex i : ℕ) (origin pos : GeoPos)
    (t R : ℝ)
    (hi : i < geoPositions.length) (hne : i ≠ originIndex)
    (horigin : geoPositions.getD originIndex ⟨0, 0⟩ = origin)
    (hpos : geoPositions.getD i ⟨0, 0⟩ = pos)
    (ht : (travelTimes.getD originIndex []).getD i none = some t)
    (hd : 1 ≤ hypot (pos.geoX - origin.geoX) (pos.geoY - origin.geoY))
    (hR : (match jsMax (((travelTimes.getD originIndex []).filterMap id).filter
              fun s => 0 < s),
            jsMax ((geoPositions.map fun p =>
                hypot (p.geoX - origin.geoX) (p.geoY - origin.geoY)).filter
              fun d => 0 < d) with
          | some maxT, some maxD =>
            t / (hypot (pos.geoX - origin.geoX) (pos.geoY - origin.geoY) *
              (maxT / maxD))
          | _, _ => 0) = R) :
    (computeRadialPositions travelTimes geoPositions originIndex)[i]? =
      some ⟨origin.geoX +
              Real.cos (atan2 (pos.geoY - origin.geoY) (pos.geoX - origin.geoX)) *
              dampedDistance
                (hypot (pos.geoX - origin.geoX) (pos.geoY - origin.geoY)) R,
            origin.geoY +
              Real.sin (atan2 (pos.geoY - origin.geoY) (pos.geoX - origin.geoX)) *
              dampedDistance
                (hypot (pos.geoX - origin.geoX) (pos.geoY - origin.geoY)) R⟩ := by
  have hlt : ¬ (hypot (pos.geoX - origin.geoX) (pos.geoY - origin.geoY) < 1) :=
    not_lt.mpr hd
  have hPi : geoPositions[i] = pos := by
    rw [← hpos, List.getD_eq_getElem?_getD, List.getElem?_eq_getElem hi,
      Option.getD_some]
  have hgd : (geoPositions.map fun p =>
      hypot (p.geoX - origin.geoX) (p.geoY - origin.geoY)).getD i 0 =
      hypot (pos.geoX - origin.geoX) (pos.geoY - origin.geoY) := by
    rw [List.getD_eq_getElem?_getD, List.getElem?_map,
      List.getElem?_eq_getElem hi, Option.map_some', Option.getD_some, hPi]
  simp only [computeRadialPositions]
  rw [List.getElem?_map, show (List.range geoPositions.length)[i]? = some i from by
    simp [List.getElem?_range, hi]]
  simp only [Option.map_some']
  rw [if_neg hne, horigin, hpos, hgd]
  simp only [ht]
  rw [if_neg hlt]
  rw [← hR]

theorem dampedDistance_pos {d R : ℝ} (hd : 1 ≤ d) (hR : 0 ≤ R) :
    0 < dampedDistance d R := by
  unfold dampedDistance dampening
  nlinarith

theorem atan2_cos_sin (θ : ℝ) (hθ : θ ∈ Set.Ioc (-Real.pi) Real.pi) (r : ℝ)
    (hr : 0 < r) : atan2 (Real.sin θ * r) (Real.cos θ * r) = θ := by
  unfold atan2
  have hz : (⟨Real.cos θ * r, Real.sin θ * r⟩ : ℂ) =
      (r : ℂ) * (Complex.cos (θ : ℂ) + Complex.sin (θ : ℂ) * Complex.I) := by
    apply Complex.ext <;>
      simp [Complex.mul_re, Complex.mul_im, Complex.cos_ofReal_re,
        Complex.cos_ofReal_im, Complex.sin_ofReal_re, Complex.sin_ofReal_im] <;>
      ring
  rw [hz]
  exact Complex.arg_mul_cos_add_sin_mul_I hr hθ

/-! ### Claim C1 -/

/-- Claim C1: in `computeRadialPositions`, for every geographic position
list, travel-time matrix and non-origin index `i` whose travel time `t`
from the origin is finite and whose geographic distance `d` from the
origin is at least `1`, the output position at `i` equals
`origin + (cos θ, sin θ) * d * (1 + (t / E - 1) * 0.6)`, where `θ` is the
polar angle of the geographic displacement from the origin,
`E = d * (maxT / maxD)`, `maxT` is the maximum finite positive travel
time of the origin's row and `maxD` the maximum positive geographic
distance from the origin over all points. -/
theorem computeRadialPositions_formula (travelTimes : List (List JsNum))
    (geoPositions : List GeoPos) (originIndex i : ℕ) (origin pos : GeoPos)
    (t maxT maxD : ℝ)
    (ho : originIndex < geoPositions.length)
    (hi : i < geoPositions.length) (hne : i ≠ originIndex)
    (horigin : geoPositions.getD originIndex ⟨0, 0⟩ = origin)
    (hpos : geoPositions.getD i ⟨0, 0⟩ = pos)
    (ht : (travelTimes.getD originIndex []).getD i none = some t)
    (hmaxT : jsMax (((travelTimes.getD originIndex []).filterMap id).filter
      fun s => 0 < s) = some maxT)
    (hmaxD : jsMax ((geoPositions.map fun p =>
        hypot (p.geoX - origin.geoX) (p.geoY - origin.geoY)).filter
      fun d => 0 < d) = some maxD)
    (hd : 1 ≤ hypot (pos.geoX - origin.geoX) (pos.geoY - origin.geoY)) :
    (computeRadialPositions travelTimes geoPositions originIndex)[i]? =
      some ⟨origin.geoX +
              Real.cos (atan2 (pos.geoY - origin.geoY) (pos.geoX - origin.geoX)) *
              (hypot (pos.geoX - origin.geoX) (pos.geoY - origin.geoY) *
                (1 + (t / (hypot (pos.geoX - origin.geoX) (pos.geoY - origin.geoY) *
                  (maxT / maxD)) - 1) * 0.6)),
            origin.geoY +
              Real.sin (atan2 (pos.geoY - origin.geoY) (pos.geoX - origin.geoX)) *
              (hypot (pos.geoX - origin.geoX) (pos.geoY - origin.geoY) *
                (1 + (t / (hypot (pos.geoX - origin.geoX) (pos.geoY - origin.geoY) *
                  (maxT / maxD)) - 1) * 0.6))⟩ := by
  have h := radial_active travelTimes geoPositions originIndex i origin pos t
    (t / (hypot (pos.geoX - origin.geoX) (pos.geoY - origin.geoY) * (maxT / maxD)))
    hi hne horigin hpos ht hd (by rw [hmaxT, hmaxD])
  rw [h]
  simp only [dampedDistance, dampening]

/-- Witness for claim C1: two points `(0,0)` (origin) and `(3,4)` with
row travel times `0` and `10`; the distance is `5`, `maxT = 10` and
`maxD = 5`. -/
theorem computeRadialPositions_formula_witness :
    (0 : ℕ) < 2 ∧ (1 : ℕ) < 2 ∧ (1 : ℕ) ≠ 0 ∧
    ([⟨0, 0⟩, ⟨3, 4⟩] : List GeoPos).getD 0 ⟨0, 0⟩ = ⟨0, 0⟩ ∧
    ([⟨0, 0⟩, ⟨3, 4⟩] : List GeoPos).getD 1 ⟨0, 0⟩ = ⟨3, 4⟩ ∧
    (([[some 0, some 10], [some 10, some 0]] : List (List JsNum)).getD 0 []).getD
      1 none = some 10 ∧
    jsMax (((([[some 0, some 10], [some 10, some 0]] : List (List JsNum)).getD
      0 []).filterMap id).filter fun s => 0 < s) = some 10 ∧
    jsMax ((([⟨0, 0⟩, ⟨3, 4⟩] : List GeoPos).map fun p =>
      hypot (p.geoX - 0) (p.geoY - 0)).filter fun d => 0 < d) = some 5 ∧
    1 ≤ hypot ((3 : ℝ) - 0) ((4 : ℝ) - 0) ∧
    (computeRadialPositions [[some 0, some 10], [some 10, some 0]]
        [⟨0, 0⟩, ⟨3, 4⟩] 0)[1]? =
      some ⟨0 + Real.cos (atan2 ((4 : ℝ) - 0) ((3 : ℝ) - 0)) *
              (hypot ((3 : ℝ) - 0) ((4 : ℝ) - 0) *
                (1 + (10 / (hypot ((3 : ℝ) - 0) ((4 : ℝ) - 0) * (10 / 5)) - 1) * 0.6)),
            0 + Real.sin (atan2 ((4 : ℝ) - 0) ((3 : ℝ) - 0)) *
              (hypot ((3 : ℝ) - 0) ((4 : ℝ) - 0) *
                (1 + (10 / (hypot ((3 : ℝ) - 0) ((4 : ℝ) - 0) * (10 / 5)) - 1) * 0.6))⟩ := by
  have h34 : hypot ((3 : ℝ) - 0) ((4 : ℝ) - 0) = 5 := by
    unfold hypot
    rw [show ((3 : ℝ) - 0) * ((3 : ℝ) - 0) + ((4 : ℝ) - 0) * ((4 : ℝ) - 0) = 5 ^ 2
      by norm_num]
    exact Real.sqrt_sq (by norm_num)
  have h00 : hypot ((0 : ℝ) - 0) ((0 : ℝ) - 0) = 0 := by
    unfold hypot
    norm_num
  have hmaxT : jsMax (((([[some 0, some 10], [some 10, some 0]] :
      List (List JsNum)).getD 0 []).filterMap id).filter fun s => 0 < s) =
      some 10 := by
    norm_num [jsMax, List.filterMap_cons, List.filter_cons]
  have h34n : hypot (3 : ℝ) 4 = 5 := by
    unfold hypot
    rw [show (3 : ℝ) * 3 + 4 * 4 = 5 ^ 2 by norm_num]
    exact Real.sqrt_sq (by norm_num)
  have h00n : hypot (0 : ℝ) 0 = 0 := by
    unfold hypot
    norm_num
  have hmaxD : jsMax ((([⟨0, 0⟩, ⟨3, 4⟩] : List GeoPos).map fun p =>
      hypot (p.geoX - 0) (p.geoY - 0)).filter fun d => 0 < d) = some 5 := by
    simp only [List.map_cons, List.map_nil]
    norm_num [h34, h00, h34n, h00n, jsMax, List.filter_cons]
  have hd : 1 ≤ hypot ((3 : ℝ) - 0) ((4 : ℝ) - 0) := by rw [h34]; norm_num
  exact ⟨by norm_num, by norm_num, by norm_num, rfl, rfl, rfl, hmaxT, hmaxD, hd,
    computeRadialPositions_formula [[some 0, some 10], [some 10, some 0]]
      [⟨0, 0⟩, ⟨3, 4⟩] 0 1 ⟨0, 0⟩ ⟨3, 4⟩ 10 10 5 (by norm_num) (by norm_num)
      (by norm_num) rfl rfl rfl hmaxT hmaxD hd⟩

/-! ### Claim C2 -/

/-- Claim C2: `computeRadialPositions` returns a point's geographic
coordinates exactly unchanged in each of three cases: the point is the
origin itself, its travel time from the origin is non-finite, or its
geographic distance from the origin is below the threshold of `1`; in all
three cases the whole layout computation still succeeds. -/
theorem computeRadialPositions_unchanged (travelTimes : List (List JsNum))
    (geoPositions : List GeoPos) (originIndex i : ℕ) (pos : GeoPos)
    (ho : originIndex < geoPositions.length)
    (hi : i < geoPositions.length)
    (hpos : geoPositions.getD i ⟨0, 0⟩ = pos)
    (hcase : i = originIndex ∨
      (travelTimes.getD originIndex []).getD i none = none ∨
      hypot (pos.geoX - (geoPositions.getD originIndex ⟨0, 0⟩).geoX)
        (pos.geoY - (geoPositions.getD originIndex ⟨0, 0⟩).geoY) < 1) :
    (computeRadialPositions travelTimes geoPositions originIndex)[i]? =
      some ⟨pos.geoX, pos.geoY⟩ := by
  have hPi : geoPositions[i] = pos := by
    rw [← hpos, List.getD_eq_getElem?_getD, List.getElem?_eq_getElem hi,
      Option.getD_some]
  have hgd : (geoPositions.map fun p =>
      hypot (p.geoX - (geoPositions.getD originIndex ⟨0, 0⟩).geoX)
        (p.geoY - (geoPositions.getD originIndex ⟨0, 0⟩).geoY)).getD i 0 =
      hypot (pos.geoX - (geoPositions.getD originIndex ⟨0, 0⟩).geoX)
        (pos.geoY - (geoPositions.getD originIndex ⟨0, 0⟩).geoY) := by
    rw [List.getD_eq_getElem?_getD, List.getElem?_map,
      List.getElem?_eq_getElem hi, Option.map_some', Option.getD_some, hPi]
  simp only [computeRadialPositions]
  rw [List.getElem?_map, show (List.range geoPositions.length)[i]? = some i from by
    simp [List.getElem?_range, hi]]
  simp only [Option.map_some']
  by_cases hio : i = originIndex
  · rw [if_pos hio]
    rw [← hio, hpos]
  · rw [if_neg hio]
    rcases hcase with hc | hc | hc
    · exact absurd hc hio
    · simp only [hc, hpos]
    · cases htime : (travelTimes.getD originIndex []).getD i none with
      | none => simp only [hpos]
      | some tt =>
        simp only [hpos, hgd]
        rw [if_pos hc]

/-- Witness for claim C2: point `(3,4)` is unreachable (non-finite travel
time) from origin `(0,0)` and keeps its geographic coordinates. -/
theorem computeRadialPositions_unchanged_witness :
    (0 : ℕ) < 2 ∧ (1 : ℕ) < 2 ∧
    ([⟨0, 0⟩, ⟨3, 4⟩] : List GeoPos).getD 1 ⟨0, 0⟩ = ⟨3, 4⟩ ∧
    (([[some 0, none], [none, some 0]] : List (List JsNum)).getD 0 []).getD
      1 none = none ∧
    (computeRadialPositions [[some 0, none], [none, some 0]]
        [⟨0, 0⟩, ⟨3, 4⟩] 0)[1]? = some ⟨3, 4⟩ := by
  exact ⟨by norm_num, by norm_num, rfl, rfl,
    computeRadialPositions_unchanged [[some 0, none], [none, some 0]]
      [⟨0, 0⟩, ⟨3, 4⟩] 0 1 ⟨3, 4⟩ (by norm_num) (by norm_num) rfl
      (Or.inr (Or.inl rfl))⟩

/-! ### Claim C3 -/

/-- Claim C3: for every non-origin point with finite non-negative travel
time and geographic distance at least `1` from the origin,
`computeRadialPositions` preserves the point's direction from the origin:
the polar angle of the output displacement from the origin equals the
polar angle of the geographic displacement; only the radial distance
changes. -/
theorem computeRadialPositions_direction (travelTimes : List (List JsNum))
    (geoPositions : List GeoPos) (originIndex i : ℕ) (origin pos : GeoPos)
    (t : ℝ)
    (ho : originIndex < geoPositions.length)
    (hi : i < geoPositions.length) (hne : i ≠ originIndex)
    (horigin : geoPositions.getD originIndex ⟨0, 0⟩ = origin)
    (hpos : geoPositions.getD i ⟨0, 0⟩ = pos)
    (ht : (travelTimes.getD originIndex []).getD i none = some t)
    (htnn : 0 ≤ t)
    (hd : 1 ≤ hypot (pos.geoX - origin.geoX) (pos.geoY - origin.geoY)) :
    ∃ q : Pt,
      (computeRadialPositions travelTimes geoPositions originIndex)[i]? =
        some q ∧
      atan2 (q.y - origin.geoY) (q.x - origin.geoX) =
        atan2 (pos.geoY - origin.geoY) (pos.geoX - origin.geoX) := by
  have hdpos : 0 < hypot (pos.geoX - origin.geoX) (pos.geoY - origin.geoY) :=
    lt_of_lt_of_le one_pos hd
  have hPi : geoPositions[i] = pos := by
    rw [← hpos, List.getD_eq_getElem?_getD, List.getElem?_eq_getElem hi,
      Option.getD_some]
  have hmemB : hypot (pos.geoX - origin.geoX) (pos.geoY - origin.geoY) ∈
      (geoPositions.map fun p =>
        hypot (p.geoX - origin.geoX) (p.geoY - origin.geoY)).filter
        fun d => 0 < d := by
    apply List.mem_filter.mpr
    refine ⟨?_, by simpa using hdpos⟩
    have hmem : pos ∈ geoPositions := by
      rw [← hPi]
      exact List.getElem_mem hi
    exact List.mem_map_of_mem _ hmem
  obtain ⟨maxD, hB⟩ := jsMax_exists (List.ne_nil_of_mem hmemB)
  have hmaxDpos : 0 < maxD := by
    have hmem := List.mem_filter.mp (jsMax_mem hB)
    simpa using hmem.2
  cases hA : jsMax (((travelTimes.getD originIndex []).filterMap id).filter
      fun s => 0 < s) with
  | none =>
    have h := radial_active travelTimes geoPositions originIndex i origin pos t 0
      hi hne horigin hpos ht hd (by rw [hA, hB])
    refine ⟨_, h, ?_⟩
    have hdd := dampedDistance_pos hd le_rfl
    simp only [add_sub_cancel_left]
    exact atan2_cos_sin _ (Complex.arg_mem_Ioc _) _ hdd
  | some maxT =>
    have hmaxTpos : 0 < maxT := by
      have hmem := List.mem_filter.mp (jsMax_mem hA)
      simpa using hmem.2
    have hRnn : 0 ≤ t / (hypot (pos.geoX - origin.geoX)
        (pos.geoY - origin.geoY) * (maxT / maxD)) :=
      div_nonneg htnn (mul_nonneg hdpos.le
        (div_nonneg hmaxTpos.le hmaxDpos.le))
    have h := radial_active travelTimes geoPositions originIndex i origin pos t
      (t / (hypot (pos.geoX - origin.geoX) (pos.geoY - origin.geoY) *
        (maxT / maxD)))
      hi hne horigin hpos ht hd (by rw [hA, hB])
    refine ⟨_, h, ?_⟩
    have hdd := dampedDistance_pos hd hRnn
    simp only [add_sub_cancel_left]
    exact atan2_cos_sin _ (Complex.arg_mem_Ioc _) _ hdd

/-- Witness for claim C3: the point `(3,4)` with travel time `10` from
origin `(0,0)` keeps its polar angle after distortion. -/
theorem computeRadialPositions_direction_witness :
    (0 : ℕ) < 2 ∧ (1 : ℕ) < 2 ∧ (1 : ℕ) ≠ 0 ∧
    ([⟨0, 0⟩, ⟨3, 4⟩] : List GeoPos).getD 0 ⟨0, 0⟩ = ⟨0, 0⟩ ∧
    ([⟨0, 0⟩, ⟨3, 4⟩] : List GeoPos).getD 1 ⟨0, 0⟩ = ⟨3, 4⟩ ∧
    (([[some 0, some 10], [some 10, some 0]] : List (List JsNum)).getD 0 []).getD
      1 none = some 10 ∧
    (0 : ℝ) ≤ 10 ∧
    1 ≤ hypot ((3 : ℝ) - 0) ((4 : ℝ) - 0) ∧
    (∃ q : Pt,
      (computeRadialPositions [[some 0, some 10], [some 10, some 0]]
          [⟨0, 0⟩, ⟨3, 4⟩] 0)[1]? = some q ∧
      atan2 (q.y - 0) (q.x - 0) = atan2 ((4 : ℝ) - 0) ((3 : ℝ) - 0)) := by
  have hd : 1 ≤ hypot ((3 : ℝ) - 0) ((4 : ℝ) - 0) := by
    unfold hypot
    rw [show ((3 : ℝ) - 0) * ((3 : ℝ) - 0) + ((4 : ℝ) - 0) * ((4 : ℝ) - 0) = 5 ^ 2
      by norm_num]
    rw [Real.sqrt_sq (by norm_num : (0 : ℝ) ≤ 5)]
    norm_num
  exact ⟨by norm_num, by norm_num, by norm_num, rfl, rfl, rfl, by norm_num, hd,
    computeRadialPositions_direction [[some 0, some 10], [some 10, some 0]]
      [⟨0, 0⟩, ⟨3, 4⟩] 0 1 ⟨0, 0⟩ ⟨3, 4⟩ 10 (by norm_num) (by norm_num)
      (by norm_num) rfl rfl rfl (by norm_num) hd⟩

/-! ### Claim C4 -/

/-- Claim C4: with the geography held fixed, the damped radial distance
`d * (1 + (t / E - 1) * 0.6)` computed by `computeRadialPositions` is
strictly increasing in the travel time `t` and strictly positive for every
non-negative `t`; consequently a point reached faster than the expected
time (`t < E`) ends up strictly closer than its geographic distance `d`,
and a point reached slower (`t > E`) strictly farther. -/
theorem dampedDistance_props (d E : ℝ) (hd : 1 ≤ d) (hE : 0 < E) :
    (∀ t1 t2 : ℝ, t1 < t2 →
        dampedDistance d (t1 / E) < dampedDistance d (t2 / E)) ∧
    (∀ t : ℝ, 0 ≤ t → 0 < dampedDistance d (t / E)) ∧
    (∀ t : ℝ, t < E → dampedDistance d (t / E) < d) ∧
    (∀ t : ℝ, E < t → d < dampedDistance d (t / E)) := by
  have hd0 : (0 : ℝ) < d := lt_of_lt_of_le one_pos hd
  refine ⟨?_, ?_, ?_, ?_⟩
  · intro t1 t2 hlt
    have h1 : t1 / E < t2 / E := by gcongr
    unfold dampedDistance dampening
    nlinarith [h1, hd0]
  · intro t ht
    have h1 : 0 ≤ t / E := div_nonneg ht hE.le
    unfold dampedDistance dampening
    nlinarith [h1, hd0]
  · intro t ht
    have h1 : t / E < 1 := (div_lt_one hE).mpr ht
    unfold dampedDistance dampening
    nlinarith [h1, hd0]
  · intro t ht
    have h1 : 1 < t / E := (one_lt_div hE).mpr ht
    unfold dampedDistance dampening
    nlinarith [h1, hd0]

/-- Witness for claim C4 at `d = 2`, `E = 1`, evaluated at `t = 3 < 4`,
`t = 0`, `t = 1 / 2 < E` and `t = 2 > E`. -/
theorem dampedDistance_props_witness :
    (1 : ℝ) ≤ 2 ∧ (0 : ℝ) < 1 ∧
    (dampedDistance 2 (3 / 1) < dampedDistance 2 (4 / 1) ∧
     0 < dampedDistance 2 (0 / 1) ∧
     dampedDistance 2 (1 / 2 / 1) < 2 ∧
     2 < dampedDistance 2 (2 / 1)) := by
  have h := dampedDistance_props 2 1 (by norm_num) (by norm_num)
  exact ⟨by norm_num, by norm_num,
    h.1 3 4 (by norm_num), h.2.1 0 (by norm_num),
    h.2.2.1 (1 / 2) (by norm_num), h.2.2.2 2 (by norm_num)⟩

/-! ### Claim C6 -/

/-- Whenever the barycentric denominator `dot00 * dot11 - dot01 * dot01`
vanishes, both coordinate numerators vanish as well (for every query
point), so the JS computation produces `0 * Infinity = NaN` for `w` and
`v` and hence `NaN` for `u`: the degenerate triangle is signalled through
non-finite coordinates that fail every `>= 0` comparison in the caller.
This justifies modelling the degenerate case of `barycentricCoords` as
`none`. -/
theorem barycentric_degenerate_numerators (px py : ℝ) (p0 p1 p2 : Pt)
    (h : ((p2.x - p0.x) * (p2.x - p0.x) + (p2.y - p0.y) * (p2.y - p0.y)) *
          ((p1.x - p0.x) * (p1.x - p0.x) + (p1.y - p0.y) * (p1.y - p0.y)) -
          ((p2.x - p0.x) * (p1.x - p0.x) + (p2.y - p0.y) * (p1.y - p0.y)) *
          ((p2.x - p0.x) * (p1.x - p0.x) + (p2.y - p0.y) * (p1.y - p0.y)) = 0) :
    ((p1.x - p0.x) * (p1.x - p0.x) + (p1.y - p0.y) * (p1.y - p0.y)) *
      ((p2.x - p0.x) * (px - p0.x) + (p2.y - p0.y) * (py - p0.y)) -
      ((p2.x - p0.x) * (p1.x - p0.x) + (p2.y - p0.y) * (p1.y - p0.y)) *
      ((p1.x - p0.x) * (px - p0.x) + (p1.y - p0.y) * (py - p0.y)) = 0 ∧
    ((p2.x - p0.x) * (p2.x - p0.x) + (p2.y - p0.y) * (p2.y - p0.y)) *
      ((p1.x - p0.x) * (px - p0.x) + (p1.y - p0.y) * (py - p0.y)) -
      ((p2.x - p0.x) * (p1.x - p0.x) + (p2.y - p0.y) * (p1.y - p0.y)) *
      ((p2.x - p0.x) * (px - p0.x) + (p2.y - p0.y) * (py - p0.y)) = 0 := by
  have hc : (p2.x - p0.x) * (p1.y - p0.y) - (p2.y - p0.y) * (p1.x - p0.x) = 0 := by
    have hsq : ((p2.x - p0.x) * (p1.y - p0.y) - (p2.y - p0.y) * (p1.x - p0.x)) ^ 2 = 0 := by
      nlinarith [h]
    exact pow_eq_zero_iff (two_ne_zero) |>.mp hsq
  constructor
  · linear_combination
      (-((p1.x - p0.x) * (py - p0.y) - (p1.y - p0.y) * (px - p0.x))) * hc
  · linear_combination
      ((p2.x - p0.x) * (py - p0.y) - (p2.y - p0.y) * (px - p0.x)) * hc

/-- Claim C6: `barycentricCoords`, given a degenerate triangle (zero
area: the two edge vectors from `p0` are linearly dependent, e.g.
collinear or coincident vertices), signals failure to the caller (the
`none` result standing for the JS NaN coordinates that fail every
`>= 0` test) rather than returning usable coordinates, so the caller
of `transformPoint` falls through to the inverse-distance fallback. -/
theorem barycentricCoords_degenerate (px py : ℝ) (p0 p1 p2 : Pt)
    (h : (p1.x - p0.x) * (p2.y - p0.y) - (p2.x - p0.x) * (p1.y - p0.y) = 0) :
    barycentricCoords px py p0 p1 p2 = none := by
  unfold barycentricCoords
  rw [if_pos]
  have hsq : ((p2.x - p0.x) * (p2.x - p0.x) + (p2.y - p0.y) * (p2.y - p0.y)) *
      ((p1.x - p0.x) * (p1.x - p0.x) + (p1.y - p0.y) * (p1.y - p0.y)) -
      ((p2.x - p0.x) * (p1.x - p0.x) + (p2.y - p0.y) * (p1.y - p0.y)) *
      ((p2.x - p0.x) * (p1.x - p0.x) + (p2.y - p0.y) * (p1.y - p0.y)) =
      ((p1.x - p0.x) * (p2.y - p0.y) - (p2.x - p0.x) * (p1.y - p0.y)) ^ 2 := by
    ring
  rw [hsq, h]
  norm_num

/-- Witness for claim C6: the coincident-and-collinear triangle
`(0,0), (1,0), (2,0)` queried at `(5,5)` yields the failure signal. -/
theorem barycentricCoords_degenerate_witness :
    ((1 : ℝ) - 0) * (0 - 0) - (2 - 0) * (0 - 0) = 0 ∧
    barycentricCoords 5 5 ⟨0, 0⟩ ⟨1, 0⟩ ⟨2, 0⟩ = none := by
  refine ⟨by norm_num, ?_⟩
  exact barycentricCoords_degenerate 5 5 ⟨0, 0⟩ ⟨1, 0⟩ ⟨2, 0⟩ (by norm_num)

/-! ### Claim C5 -/

/-- Claim C5: for every mesh built by `createMesh` and for all airport
original/target position arrays (of any displacement magnitude),
`deformMesh` returns, for every mesh point of type `'boundary'`, exactly
that point's original coordinates: boundary points never move. -/
theorem deformMesh_boundary_fixed (airports : List Airport) (bounds : Bounds)
    (isInsideUS : Option (ℝ → ℝ → Bool))
    (delaunayFrom : List MeshPoint → List (ℕ × ℕ × ℕ))
    (airportTargets airportOriginals : List Pt) (i : ℕ)
    (hi : i < (createMesh airports bounds isInsideUS delaunayFrom).points.length)
    (hb : ((createMesh airports bounds isInsideUS delaunayFrom).points.getD i
      default).type = MeshPointType.boundary) :
    (deformMesh (createMesh airports bounds isInsideUS delaunayFrom)
        airportTargets airportOriginals)[i]? =
      some ⟨((createMesh airports bounds isInsideUS delaunayFrom).points.getD i
          default).x,
        ((createMesh airports bounds isInsideUS delaunayFrom).points.getD i
          default).y⟩ := by
  have hP : (createMesh airports bounds isInsideUS delaunayFrom).points.getD i
      default = (createMesh airports bounds isInsideUS delaunayFrom).points[i] := by
    rw [List.getD_eq_getElem?_getD, List.getElem?_eq_getElem hi, Option.getD_some]
  rw [hP] at hb
  simp only [deformMesh]
  rw [List.getElem?_map, List.getElem?_eq_getElem hi]
  simp only [Option.map_some']
  rw [hP, hb]

/-- Witness for claim C5: the mesh over empty airports and a `0 × 0`
viewport consists of two boundary corner points; the first stays fixed. -/
theorem deformMesh_boundary_fixed_witness :
    0 < (createMesh [] ⟨0, 0⟩ none fun _ => []).points.length ∧
    ((createMesh [] ⟨0, 0⟩ none fun _ => []).points.getD 0 default).type =
      MeshPointType.boundary ∧
    (deformMesh (createMesh [] ⟨0, 0⟩ none fun _ => []) [] [])[0]? =
      some ⟨((createMesh [] ⟨0, 0⟩ none fun _ => []).points.getD 0 default).x,
            ((createMesh [] ⟨0, 0⟩ none fun _ => []).points.getD 0 default).y⟩ := by
  have hlen : 0 < (createMesh [] ⟨0, 0⟩ none fun _ => []).points.length := by
    rw [show (createMesh [] ⟨0, 0⟩ none fun _ => []).points.length = 2 from rfl]
    norm_num
  have hb : ((createMesh [] ⟨0, 0⟩ none fun _ => []).points.getD 0 default).type =
      MeshPointType.boundary := rfl
  exact ⟨hlen, hb,
    deformMesh_boundary_fixed [] ⟨0, 0⟩ none (fun _ => []) [] [] 0 hlen hb⟩

/-! ### Claim C8 -/

theorem interpolateLoop_snap (power : ℝ) (point : Pt) :
    ∀ (pairs : List (Pt × Pt)) (i : ℕ) (hp : i < pairs.length)
      (sX sY sW : ℝ),
      hypot ((pairs[i]).1.x - point.x) ((pairs[i]).1.y - point.y) < 1 →
      (∀ j, ∀ hj : j < i,
        1 ≤ hypot ((pairs[j]).1.x - point.x) ((pairs[j]).1.y - point.y)) →
      interpolateLoop power point pairs sX sY sW =
        ⟨(pairs[i]).2.x, (pairs[i]).2.y⟩ := by
  intro pairs
  induction pairs with
  | nil => intro i hp; exact absurd hp (Nat.not_lt_zero i)
  | cons pr rest ih =>
    intro i hp sX sY sW hnear hfar
    cases i with
    | zero =>
      rw [interpolateLoop, if_pos (show hypot (pr.1.x - point.x)
        (pr.1.y - point.y) < 1 by simpa using hnear)]
      simp
    | succ n =>
      have hfar0 : 1 ≤ hypot (pr.1.x - point.x) (pr.1.y - point.y) :=
        hfar 0 (Nat.succ_pos n)
      rw [interpolateLoop, if_neg (not_lt.mpr hfar0)]
      have hp2 : n < rest.length := Nat.lt_of_succ_lt_succ hp
      have hnear2 : hypot ((rest[n]).1.x - point.x) ((rest[n]).1.y - point.y) < 1 := by
        simpa using hnear
      have hfar2 : ∀ j, ∀ hj : j < n,
          1 ≤ hypot ((rest[j]).1.x - point.x) ((rest[j]).1.y - point.y) := by
        intro j hj
        have := hfar (j + 1) (Nat.succ_lt_succ hj)
        simpa using this
      have := ih n hp2 (sX + 1 / hypot (pr.1.x - point.x) (pr.1.y - point.y) ^ power *
          (point.x + (pr.2.x - pr.1.x)))
        (sY + 1 / hypot (pr.1.x - point.x) (pr.1.y - point.y) ^ power *
          (point.y + (pr.2.y - pr.1.y)))
        (sW + 1 / hypot (pr.1.x - point.x) (pr.1.y - point.y) ^ power)
        hnear2 hfar2
      rw [this]
      simp

/-- Claim C8: for every query point whose distance to some airport control
point is below `1` unit, `interpolatePosition` returns exactly that
control point's target position (the first such control point in order, as
the JS loop returns on the first hit): an exact snap with no weighted
averaging. -/
theorem interpolatePosition_snap (point : Pt) (originals targets : List Pt)
    (power : ℝ) (i : ℕ)
    (hio : i < originals.length) (hit : i < targets.length)
    (hnear : hypot ((originals[i]).x - point.x) ((originals[i]).y - point.y) < 1)
    (hfirst : ∀ j, ∀ hj : j < i,
      1 ≤ hypot ((originals[j]).x - point.x) ((originals[j]).y - point.y)) :
    interpolatePosition point originals targets power = targets[i] := by
  unfold interpolatePosition
  have hp : i < (originals.zip targets).length := by
    rw [List.length_zip]
    omega
  have hz : (originals.zip targets)[i] = (originals[i], targets[i]) :=
    List.getElem_zip
  have hnear2 : hypot (((originals.zip targets)[i]).1.x - point.x)
      (((originals.zip targets)[i]).1.y - point.y) < 1 := by
    rw [hz]
    exact hnear
  have hfar2 : ∀ j, ∀ hj : j < i,
      1 ≤ hypot (((originals.zip targets)[j]).1.x - point.x)
        (((originals.zip targets)[j]).1.y - point.y) := by
    intro j hj
    have hjo : j < originals.length := by omega
    have hjt : j < targets.length := by omega
    have hjz : (originals.zip targets)[j] = (originals[j], targets[j]) :=
      List.getElem_zip
    rw [hjz]
    exact hfirst j hj
  rw [interpolateLoop_snap power point (originals.zip targets) i hp 0 0 0
    hnear2 hfar2, hz]

/-- Witness for claim C8: a query point coincident with the single control
point at `(0,0)` snaps exactly to that control point's target `(9,3)`. -/
theorem interpolatePosition_snap_witness :
    (0 : ℕ) < 1 ∧ (0 : ℕ) < 1 ∧
    hypot ((0 : ℝ) - 0) ((0 : ℝ) - 0) < 1 ∧
    interpolatePosition ⟨0, 0⟩ [⟨0, 0⟩] [⟨9, 3⟩] 2.5 = ⟨9, 3⟩ := by
  have hnear : hypot ((0 : ℝ) - 0) ((0 : ℝ) - 0) < 1 := by
    unfold hypot
    norm_num
  exact ⟨by norm_num, by norm_num, hnear,
    interpolatePosition_snap ⟨0, 0⟩ [⟨0, 0⟩] [⟨9, 3⟩] 2.5 0 (by norm_num)
      (by norm_num) hnear (fun j hj => absurd hj (Nat.not_lt_zero j))⟩

/-! ### Claim C9 -/

theorem foldl_maxFiniteStep_row (row : List JsNum) :
    ∀ a : ℝ,
      (row.foldl maxFiniteStep a = a ∨
        row.foldl maxFiniteStep a ∈ row.filterMap id) ∧
      a ≤ row.foldl maxFiniteStep a ∧
      ∀ x ∈ row.filterMap id, x ≤ row.foldl maxFiniteStep a := by
  induction row with
  | nil => intro a; simp
  | cons v rest ih =>
    intro a
    cases v with
    | none =>
      simpa [maxFiniteStep] using ih a
    | some x =>
      have key := ih (maxFiniteStep a (some x))
      obtain ⟨k1, k2, k3⟩ := key
      have hstep : maxFiniteStep a (some x) = if a < x then x else a := rfl
      have haa : a ≤ maxFiniteStep a (some x) := by
        rw [hstep]
        split
        · exact le_of_lt (by assumption)
        · exact le_rfl
      have hxa : x ≤ maxFiniteStep a (some x) := by
        rw [hstep]
        split
        · exact le_rfl
        · exact le_of_not_lt (by assumption)
      refine ⟨?_, ?_, ?_⟩
      · simp only [List.foldl_cons, List.filterMap_cons, id_eq]
        rcases k1 with hk | hk
        · rw [hk, hstep]
          split
          · exact Or.inr (List.mem_cons_self x _)
          · exact Or.inl rfl
        · exact Or.inr (List.mem_cons_of_mem x hk)
      · simp only [List.foldl_cons]
        exact le_trans haa k2
      · simp only [List.foldl_cons, List.filterMap_cons, id_eq]
        intro y hy
        rcases List.mem_cons.mp hy with hyx | hyr
        · rw [hyx]
          exact le_trans hxa k2
        · exact k3 y hyr

theorem foldl_rows_spec (distances : List (List JsNum)) :
    ∀ a : ℝ,
      (distances.foldl (fun acc row => row.foldl maxFiniteStep acc) a = a ∨
        distances.foldl (fun acc row => row.foldl maxFiniteStep acc) a ∈
          finiteEntries distances) ∧
      a ≤ distances.foldl (fun acc row => row.foldl maxFiniteStep acc) a ∧
      ∀ x ∈ finiteEntries distances,
        x ≤ distances.foldl (fun acc row => row.foldl maxFiniteStep acc) a := by
  induction distances with
  | nil => intro a; simp [finiteEntries]
  | cons row rest ih =>
    intro a
    obtain ⟨h1, h2, h3⟩ := foldl_maxFiniteStep_row row a
    obtain ⟨k1, k2, k3⟩ := ih (row.foldl maxFiniteStep a)
    have hfe : finiteEntries (row :: rest) =
        row.filterMap id ++ finiteEntries rest := rfl
    refine ⟨?_, ?_, ?_⟩
    · simp only [List.foldl_cons, hfe, List.mem_append]
      rcases k1 with hk | hk
      · rw [hk]
        rcases h1 with hh | hh
        · exact Or.inl hh
        · exact Or.inr (Or.inl hh)
      · exact Or.inr (Or.inr hk)
    · simp only [List.foldl_cons]
      exact le_trans h2 k2
    · simp only [List.foldl_cons, hfe]
      intro x hx
      rcases List.mem_append.mp hx with hxr | hxe
      · exact le_trans (h3 x hxr) k2
      · exact k3 x hxe

/-- Claim C9: for every distance matrix (non-negative entries, with at
least one finite entry so that the maximum finite entry `M` exists),
`sanitize` returns a new matrix in which every non-finite entry is
replaced by `M * 1.5` and every finite entry is left unchanged.  The
model is purely functional, so the input is never mutated: `sanitize`
builds its result with `map`. -/
theorem sanitize_spec (distances : List (List JsNum)) (M : ℝ)
    (hM : jsMax (finiteEntries distances) = some M)
    (hnn : ∀ x ∈ finiteEntries distances, 0 ≤ x) :
    sanitize distances = distances.map fun row => row.map fun v =>
      match v with
      | some x => x
      | none => M * 1.5 := by
  have h := foldl_rows_spec distances 0
  obtain ⟨h1, -, h3⟩ := h
  have hMr : M ≤ distances.foldl (fun acc row => row.foldl maxFiniteStep acc) 0 :=
    h3 M (jsMax_mem hM)
  have hMF : maxFiniteOf distances = M := by
    rcases h1 with h0 | hmem
    · have hM0 : 0 ≤ M := hnn M (jsMax_mem hM)
      have : M = 0 := le_antisymm (h0 ▸ hMr) hM0
      rw [maxFiniteOf, h0, this]
    · exact le_antisymm (le_jsMax hmem hM) hMr
  simp only [sanitize, hMF]
  have hfun : (fun v : JsNum => v.getD (M * 1.5)) = fun v : JsNum =>
      match v with
      | some x => x
      | none => M * 1.5 := by
    funext v
    cases v <;> rfl
  rw [hfun]

/-- Witness for claim C9 on the matrix `[[10, ∞], [4, 0]]`: the maximum
finite entry is `10`, the sentinel becomes `15`, finite entries stay. -/
theorem sanitize_spec_witness :
    jsMax (finiteEntries [[some 10, none], [some 4, some 0]]) = some 10 ∧
    (∀ x ∈ finiteEntries [[some 10, none], [some 4, some 0]], 0 ≤ x) ∧
    sanitize [[some 10, none], [some 4, some 0]] =
      ([[some 10, none], [some 4, some 0]] : List (List JsNum)).map fun row =>
        row.map fun v =>
          match v with
          | some x => x
          | none => 10 * 1.5 := by
  have hfe : finiteEntries [[some (10 : ℝ), none], [some 4, some 0]] =
      [10, 4, 0] := rfl
  have hM : jsMax (finiteEntries [[some (10 : ℝ), none], [some 4, some 0]]) =
      some 10 := by
    rw [hfe]
    simp [jsMax]
    norm_num [max_def]
  have hnn : ∀ x ∈ finiteEntries [[some (10 : ℝ), none], [some 4, some 0]],
      0 ≤ x := by
    intro x hx
    rw [hfe] at hx
    rcases List.mem_cons.mp hx with h | hx
    · rw [h]; norm_num
    rcases List.mem_cons.mp hx with h | hx
    · rw [h]; norm_num
    rcases List.mem_cons.mp hx with h | hx
    · rw [h]
    · exact absurd hx (List.not_mem_nil x)
  exact ⟨hM, hnn, sanitize_spec [[some 10, none], [some 4, some 0]] 10 hM hnn⟩

/-! ### Mesh structure lemmas -/

/-- The point list of a `createMesh` mesh is the airport points (in input
order, carrying their index) followed by boundary and grid points, none of
which is tagged `'airport'`. -/
theorem createMesh_points_split (airports : List Airport) (bounds : Bounds)
    (isInsideUS : Option (ℝ → ℝ → Bool))
    (delaunayFrom : List MeshPoint → List (ℕ × ℕ × ℕ)) :
    ∃ rest : List MeshPoint,
      (createMesh airports bounds isInsideUS delaunayFrom).points =
        (airports.enum.map fun ia =>
          (⟨ia.2.x, ia.2.y, .airport, ia.1, ia.2.code⟩ : MeshPoint)) ++ rest ∧
      ∀ p ∈ rest, p.type ≠ MeshPointType.airport := by
  refine ⟨boundaryGridPoints bounds isInsideUS, rfl, ?_⟩
  intro p hp
  simp only [boundaryGridPoints, List.mem_append, List.mem_map,
    List.mem_flatMap, List.mem_filterMap] at hp
  rcases hp with ((((⟨gx, -, rfl⟩ | ⟨gx, -, rfl⟩) | ⟨gy, -, rfl⟩) |
    ⟨gy, -, rfl⟩) | ⟨gx, -, gy, -, heq⟩)
  · simp
  · simp
  · simp
  · simp
  cases isInsideUS with
  | none =>
    rw [Option.some_inj.mp heq.symm]
    simp
  | some inUS =>
    split at heq
    · rw [Option.some_inj.mp heq.symm]
      simp
    · split at heq
      · rw [Option.some_inj.mp heq.symm]
        simp
      · exact absurd heq (by simp)

/-- The `airportCount` of a `createMesh` mesh is the number of airports. -/
theorem createMesh_airportCount (airports : List Airport) (bounds : Bounds)
    (isInsideUS : Option (ℝ → ℝ → Bool))
    (delaunayFrom : List MeshPoint → List (ℕ × ℕ × ℕ)) :
    (createMesh airports bounds isInsideUS delaunayFrom).airportCount =
      airports.length := rfl

/-- Filtering a `createMesh` point list for the `'airport'` tag recovers
exactly the airport points. -/
theorem createMesh_filter_airport (airports : List Airport) (bounds : Bounds)
    (isInsideUS : Option (ℝ → ℝ → Bool))
    (delaunayFrom : List MeshPoint → List (ℕ × ℕ × ℕ)) :
    ((createMesh airports bounds isInsideUS delaunayFrom).points.filter
      fun p => p.type = MeshPointType.airport) =
      airports.enum.map fun ia =>
        (⟨ia.2.x, ia.2.y, .airport, ia.1, ia.2.code⟩ : MeshPoint) := by
  obtain ⟨rest, hsplit, hrest⟩ :=
    createMesh_points_split airports bounds isInsideUS delaunayFrom
  rw [hsplit, List.filter_append]
  have h1 : ((airports.enum.map fun ia =>
      (⟨ia.2.x, ia.2.y, .airport, ia.1, ia.2.code⟩ : MeshPoint)).filter
      fun p => p.type = MeshPointType.airport) =
      airports.enum.map fun ia =>
        (⟨ia.2.x, ia.2.y, .airport, ia.1, ia.2.code⟩ : MeshPoint) := by
    apply List.filter_eq_self.mpr
    intro p hp
    simp only [List.mem_map] at hp
    obtain ⟨ia, -, rfl⟩ := hp
    simp
  have h2 : (rest.filter fun p => p.type = MeshPointType.airport) = [] := by
    rw [List.filter_eq_nil_iff]
    intro p hp
    simpa using hrest p hp
  rw [h1, h2, List.append_nil]

/-- The `j`-th point of a `createMesh` mesh, for `j` below the airport
count, is the `j`-th airport with the `'airport'` tag and index `j`. -/
theorem createMesh_getElem_airport (airports : List Airport) (bounds : Bounds)
    (isInsideUS : Option (ℝ → ℝ → Bool))
    (delaunayFrom : List MeshPoint → List (ℕ × ℕ × ℕ)) (j : ℕ)
    (hj : j < airports.length) :
    (createMesh airports bounds isInsideUS delaunayFrom).points[j]? =
      some ⟨(airports[j]).x, (airports[j]).y, .airport, j, (airports[j]).code⟩ := by
  obtain ⟨rest, hsplit, -⟩ :=
    createMesh_points_split airports bounds isInsideUS delaunayFrom
  rw [hsplit, List.getElem?_append,
    if_pos (by rw [List.length_map, List.enum_length]; exact hj),
    List.getElem?_map, List.getElem?_enum, List.getElem?_eq_getElem hj]
  rfl

/-- A point of a `createMesh` mesh tagged `'airport'` sits at an index
below the airport count. -/
theorem createMesh_airport_type_lt (airports : List Airport) (bounds : Bounds)
    (isInsideUS : Option (ℝ → ℝ → Bool))
    (delaunayFrom : List MeshPoint → List (ℕ × ℕ × ℕ)) (j : ℕ)
    (hj : j < (createMesh airports bounds isInsideUS delaunayFrom).points.length)
    (hty : ((createMesh airports bounds isInsideUS delaunayFrom).points[j]).type =
      MeshPointType.airport) :
    j < airports.length := by
  obtain ⟨rest, hsplit, hrest⟩ :=
    createMesh_points_split airports bounds isInsideUS delaunayFrom
  by_contra hge
  have hAlen : (airports.enum.map fun ia =>
      (⟨ia.2.x, ia.2.y, .airport, ia.1, ia.2.code⟩ : MeshPoint)).length =
      airports.length := by
    rw [List.length_map, List.enum_length]
  have happ : ((airports.enum.map fun ia =>
      (⟨ia.2.x, ia.2.y, .airport, ia.1, ia.2.code⟩ : MeshPoint)) ++ rest)[j]? =
      rest[j - airports.length]? := by
    rw [List.getElem?_append, if_neg (by rw [hAlen]; omega), hAlen]
  have hjr : rest[j - airports.length]? =
      some ((createMesh airports bounds isInsideUS delaunayFrom).points[j]) := by
    rw [← happ, ← hsplit, List.getElem?_eq_getElem hj]
  exact hrest _ (List.getElem?_mem hjr) hty

/-! ### Interpolation lemmas -/

/-- With targets equal to originals and the query point at distance at
least `1` from every control point, the accumulation loop of
`interpolatePosition` returns the query point itself: every displacement
is zero, so the weighted sums stay proportional to the query point. -/
theorem interpolateLoop_identity (power : ℝ) (point : Pt) :
    ∀ (l : List Pt) (s sX sY : ℝ), 0 ≤ s → (0 < s ∨ l ≠ []) →
      sX = point.x * s → sY = point.y * s →
      (∀ q ∈ l, 1 ≤ hypot (q.x - point.x) (q.y - point.y)) →
      interpolateLoop power point (l.zip l) sX sY s = ⟨point.x, point.y⟩ := by
  intro l
  induction l with
  | nil =>
    intro s sX sY hs hne hx hy hfar
    rcases hne with hpos | hne
    · rw [show (([] : List Pt).zip ([] : List Pt)) = [] from rfl,
        interpolateLoop, hx, hy,
        mul_div_cancel_right₀ point.x (ne_of_gt hpos),
        mul_div_cancel_right₀ point.y (ne_of_gt hpos)]
    · exact absurd rfl hne
  | cons q rest ih =>
    intro s sX sY hs hne hx hy hfar
    have hq := hfar q (List.mem_cons_self q rest)
    rw [show ((q :: rest).zip (q :: rest)) = (q, q) :: rest.zip rest from rfl,
      interpolateLoop, if_neg (not_lt.mpr hq)]
    have h0 : 0 < hypot (q.x - point.x) (q.y - point.y) :=
      lt_of_lt_of_le one_pos hq
    have hw : 0 < 1 / hypot (q.x - point.x) (q.y - point.y) ^ power := by
      positivity
    exact ih (s + 1 / hypot (q.x - point.x) (q.y - point.y) ^ power) _ _
      (by linarith) (Or.inl (by linarith)) (by rw [hx]; ring) (by rw [hy]; ring)
      (fun r hr => hfar r (List.mem_cons_of_mem q hr))

/-- `interpolatePosition` with targets equal to originals fixes any query
point at distance at least `1` from every (existing) control point. -/
theorem interpolatePosition_identity (point : Pt) (l : List Pt) (power : ℝ)
    (hne : l ≠ [])
    (hfar : ∀ q ∈ l, 1 ≤ hypot (q.x - point.x) (q.y - point.y)) :
    interpolatePosition point l l power = ⟨point.x, point.y⟩ := by
  unfold interpolatePosition
  exact interpolateLoop_identity power point l 0 0 0 le_rfl (Or.inr hne)
    (by ring) (by ring) hfar

/-- The accumulation loop of `interpolatePosition`, started with a
non-negative weight sum and at least one control pair (or an already
positive sum), returns either an exact snap to some pair's target or a
quotient by a strictly positive total weight: the division at the end of
the JS loop is never `0 / 0`. -/
theorem interpolateLoop_welldef (power : ℝ) (point : Pt) :
    ∀ (pairs : List (Pt × Pt)) (sX sY sW : ℝ), 0 ≤ sW →
      (0 < sW ∨ pairs ≠ []) →
      (∃ pr ∈ pairs, interpolateLoop power point pairs sX sY sW =
        ⟨pr.2.x, pr.2.y⟩) ∨
      (∃ X Y W : ℝ, 0 < W ∧ interpolateLoop power point pairs sX sY sW =
        ⟨X / W, Y / W⟩) := by
  intro pairs
  induction pairs with
  | nil =>
    intro sX sY sW hW h
    right
    rcases h with h | h
    · exact ⟨sX, sY, sW, h, rfl⟩
    · exact absurd rfl h
  | cons pr rest ih =>
    intro sX sY sW hW h
    by_cases hd : hypot (pr.1.x - point.x) (pr.1.y - point.y) < 1
    · exact Or.inl ⟨pr, List.mem_cons_self pr rest,
        by rw [interpolateLoop, if_pos hd]⟩
    · rw [interpolateLoop, if_neg hd]
      have h1 : 1 ≤ hypot (pr.1.x - point.x) (pr.1.y - point.y) := not_lt.mp hd
      have h0 : 0 < hypot (pr.1.x - point.x) (pr.1.y - point.y) :=
        lt_of_lt_of_le one_pos h1
      have hw : 0 < 1 / hypot (pr.1.x - point.x) (pr.1.y - point.y) ^ power := by
        positivity
      rcases ih (sX + 1 / hypot (pr.1.x - point.x) (pr.1.y - point.y) ^ power *
          (point.x + (pr.2.x - pr.1.x)))
          (sY + 1 / hypot (pr.1.x - point.x) (pr.1.y - point.y) ^ power *
            (point.y + (pr.2.y - pr.1.y)))
          (sW + 1 / hypot (pr.1.x - point.x) (pr.1.y - point.y) ^ power)
          (by linarith) (Or.inl (by linarith)) with
        ⟨pr2, hpr2, heq⟩ | ⟨X, Y, W, hWpos, heq⟩
      · exact Or.inl ⟨pr2, List.mem_cons_of_mem pr hpr2, heq⟩
      · exact Or.inr ⟨X, Y, W, hWpos, heq⟩

/-- When no triangle of the scanned list passes the barycentric
containment test, the triangle scan of `transformPoint` finds nothing. -/
theorem findTriangleTransform_none (px py : ℝ) (mesh : Mesh)
    (deformedPositions : List Pt) :
    ∀ ts : List (ℕ × ℕ × ℕ),
      (∀ tr ∈ ts, ∀ b, barycentricCoords px py
        ⟨(mesh.points.getD tr.1 default).x, (mesh.points.getD tr.1 default).y⟩
        ⟨(mesh.points.getD tr.2.1 default).x, (mesh.points.getD tr.2.1 default).y⟩
        ⟨(mesh.points.getD tr.2.2 default).x, (mesh.points.getD tr.2.2 default).y⟩ =
          some b → ¬(0 ≤ b.u ∧ 0 ≤ b.v ∧ 0 ≤ b.w)) →
      findTriangleTransform px py mesh deformedPositions ts = none := by
  intro ts
  induction ts with
  | nil => intro h; rfl
  | cons tr rest ih =>
    intro h
    rw [findTriangleTransform]
    split
    next b hb =>
      rw [if_neg (h tr (List.mem_cons_self tr rest) b hb)]
      exact ih fun tr2 htr2 => h tr2 (List.mem_cons_of_mem tr htr2)
    next hb =>
      exact ih fun tr2 htr2 => h tr2 (List.mem_cons_of_mem tr htr2)

/-! ### Claim C7 -/

/-- Claim C7: for every query point that lies inside no triangle of a
`createMesh` mesh (every barycentric containment test fails),
`transformPoint` still returns a defined, finite position: it applies
inverse-distance interpolation directly against the airport control
points and the first `airportCount` deformed positions, and — provided
the mesh contains at least one airport point and deformed positions for
all mesh points — that fallback is either an exact snap to a deformed
airport position or a quotient by a strictly positive total weight, so no
query point is ever left untransformed. -/
theorem transformPoint_fallback (airports : List Airport) (bounds : Bounds)
    (isInsideUS : Option (ℝ → ℝ → Bool))
    (delaunayFrom : List MeshPoint → List (ℕ × ℕ × ℕ)) (mesh : Mesh)
    (hmesh : mesh = createMesh airports bounds isInsideUS delaunayFrom)
    (px py : ℝ) (originalPositions deformedPositions : List Pt)
    (hairports : airports ≠ [])
    (hdlen : mesh.points.length ≤ deformedPositions.length)
    (hout : ∀ tr ∈ mesh.triangles, ∀ b, barycentricCoords px py
      ⟨(mesh.points.getD tr.1 default).x, (mesh.points.getD tr.1 default).y⟩
      ⟨(mesh.points.getD tr.2.1 default).x, (mesh.points.getD tr.2.1 default).y⟩
      ⟨(mesh.points.getD tr.2.2 default).x, (mesh.points.getD tr.2.2 default).y⟩ =
        some b → ¬(0 ≤ b.u ∧ 0 ≤ b.v ∧ 0 ≤ b.w)) :
    transformPoint px py mesh originalPositions deformedPositions =
      interpolatePosition ⟨px, py⟩
        ((mesh.points.filter fun p => p.type = MeshPointType.airport).map
          fun p => ⟨p.x, p.y⟩)
        (deformedPositions.take mesh.airportCount)
        CONFIG.rubberSheet.interpolationPower ∧
    ((∃ q ∈ deformedPositions.take mesh.airportCount,
        transformPoint px py mesh originalPositions deformedPositions = q) ∨
      (∃ X Y W : ℝ, 0 < W ∧
        transformPoint px py mesh originalPositions deformedPositions =
          ⟨X / W, Y / W⟩)) := by
  have heq : transformPoint px py mesh originalPositions deformedPositions =
      interpolatePosition ⟨px, py⟩
        ((mesh.points.filter fun p => p.type = MeshPointType.airport).map
          fun p => ⟨p.x, p.y⟩)
        (deformedPositions.take mesh.airportCount)
        CONFIG.rubberSheet.interpolationPower := by
    simp only [transformPoint]
    rw [findTriangleTransform_none px py mesh deformedPositions mesh.triangles
      hout]
  refine ⟨heq, ?_⟩
  rw [heq]
  subst hmesh
  have hfa := createMesh_filter_airport airports bounds isInsideUS delaunayFrom
  have hAlen : ((createMesh airports bounds isInsideUS delaunayFrom).points.filter
      fun p => p.type = MeshPointType.airport).length = airports.length := by
    rw [hfa, List.length_map, List.enum_length]
  have hplen : airports.length ≤
      (createMesh airports bounds isInsideUS delaunayFrom).points.length := by
    obtain ⟨rest, hsplit, -⟩ :=
      createMesh_points_split airports bounds isInsideUS delaunayFrom
    rw [hsplit, List.length_append, List.length_map, List.enum_length]
    omega
  have hapos : 0 < airports.length := List.length_pos.mpr hairports
  have hpairs_pos : 0 <
      ((((createMesh airports bounds isInsideUS delaunayFrom).points.filter
        fun p => p.type = MeshPointType.airport).map fun p =>
          (⟨p.x, p.y⟩ : Pt)).zip
        (deformedPositions.take
          (createMesh airports bounds isInsideUS delaunayFrom).airportCount)).length := by
    rw [List.length_zip, List.length_map, hAlen, List.length_take,
      createMesh_airportCount]
    omega
  have hpairs : (((createMesh airports bounds isInsideUS delaunayFrom).points.filter
      fun p => p.type = MeshPointType.airport).map fun p =>
        (⟨p.x, p.y⟩ : Pt)).zip
      (deformedPositions.take
        (createMesh airports bounds isInsideUS delaunayFrom).airportCount) ≠ [] := by
    intro hnil
    rw [hnil] at hpairs_pos
    simp at hpairs_pos
  rcases interpolateLoop_welldef CONFIG.rubberSheet.interpolationPower ⟨px, py⟩
      ((((createMesh airports bounds isInsideUS delaunayFrom).points.filter
        fun p => p.type = MeshPointType.airport).map fun p =>
          (⟨p.x, p.y⟩ : Pt)).zip
        (deformedPositions.take
          (createMesh airports bounds isInsideUS delaunayFrom).airportCount))
      0 0 0 le_rfl (Or.inr hpairs) with
    ⟨pr, hmem, heq2⟩ | ⟨X, Y, W, hW, heq2⟩
  · exact Or.inl ⟨pr.2, (List.of_mem_zip hmem).2, heq2⟩
  · exact Or.inr ⟨X, Y, W, hW, heq2⟩

/-- Witness for claim C7: one airport at `(5,5)` on a `0 × 0` viewport
with an empty triangulation; the query `(0,0)` is inside no triangle and
the fallback interpolation is taken and well defined. -/
theorem transformPoint_fallback_witness :
    ([⟨5, 5, "AAA"⟩] : List Airport) ≠ [] ∧
    (createMesh [⟨5, 5, "AAA"⟩] ⟨0, 0⟩ none fun _ => []).points.length ≤
      ([⟨7, 7⟩, ⟨1, 2⟩, ⟨3, 4⟩] : List Pt).length ∧
    (transformPoint 0 0 (createMesh [⟨5, 5, "AAA"⟩] ⟨0, 0⟩ none fun _ => [])
        [] [⟨7, 7⟩, ⟨1, 2⟩, ⟨3, 4⟩] =
      interpolatePosition ⟨0, 0⟩
        (((createMesh [⟨5, 5, "AAA"⟩] ⟨0, 0⟩ none fun _ => []).points.filter
          fun p => p.type = MeshPointType.airport).map fun p => ⟨p.x, p.y⟩)
        (([⟨7, 7⟩, ⟨1, 2⟩, ⟨3, 4⟩] : List Pt).take
          (createMesh [⟨5, 5, "AAA"⟩] ⟨0, 0⟩ none fun _ => []).airportCount)
        CONFIG.rubberSheet.interpolationPower ∧
      ((∃ q ∈ ([⟨7, 7⟩, ⟨1, 2⟩, ⟨3, 4⟩] : List Pt).take
          (createMesh [⟨5, 5, "AAA"⟩] ⟨0, 0⟩ none fun _ => []).airportCount,
          transformPoint 0 0 (createMesh [⟨5, 5, "AAA"⟩] ⟨0, 0⟩ none fun _ => [])
            [] [⟨7, 7⟩, ⟨1, 2⟩, ⟨3, 4⟩] = q) ∨
        (∃ X Y W : ℝ, 0 < W ∧
          transformPoint 0 0 (createMesh [⟨5, 5, "AAA"⟩] ⟨0, 0⟩ none fun _ => [])
            [] [⟨7, 7⟩, ⟨1, 2⟩, ⟨3, 4⟩] = ⟨X / W, Y / W⟩))) := by
  have hdlen : (createMesh [⟨5, 5, "AAA"⟩] ⟨0, 0⟩ none fun _ => []).points.length ≤
      ([⟨7, 7⟩, ⟨1, 2⟩, ⟨3, 4⟩] : List Pt).length := by
    rw [show (createMesh [⟨5, 5, "AAA"⟩] ⟨0, 0⟩ none
      fun _ => []).points.length = 3 from rfl]
    norm_num
  have hout : ∀ tr ∈ (createMesh [⟨5, 5, "AAA"⟩] ⟨0, 0⟩ none
      fun _ => []).triangles, ∀ b, barycentricCoords 0 0
      ⟨((createMesh [⟨5, 5, "AAA"⟩] ⟨0, 0⟩ none fun _ => []).points.getD
        tr.1 default).x,
       ((createMesh [⟨5, 5, "AAA"⟩] ⟨0, 0⟩ none fun _ => []).points.getD
        tr.1 default).y⟩
      ⟨((createMesh [⟨5, 5, "AAA"⟩] ⟨0, 0⟩ none fun _ => []).points.getD
        tr.2.1 default).x,
       ((createMesh [⟨5, 5, "AAA"⟩] ⟨0, 0⟩ none fun _ => []).points.getD
        tr.2.1 default).y⟩
      ⟨((createMesh [⟨5, 5, "AAA"⟩] ⟨0, 0⟩ none fun _ => []).points.getD
        tr.2.2 default).x,
       ((createMesh [⟨5, 5, "AAA"⟩] ⟨0, 0⟩ none fun _ => []).points.getD
        tr.2.2 default).y⟩ = some b → ¬(0 ≤ b.u ∧ 0 ≤ b.v ∧ 0 ≤ b.w) := by
    intro tr htr
    rw [show (createMesh [⟨5, 5, "AAA"⟩] ⟨0, 0⟩ none
      fun _ => []).triangles = [] from rfl] at htr
    exact absurd htr (List.not_mem_nil tr)
  exact ⟨by simp, hdlen,
    transformPoint_fallback [⟨5, 5, "AAA"⟩] ⟨0, 0⟩ none (fun _ => [])
      (createMesh [⟨5, 5, "AAA"⟩] ⟨0, 0⟩ none fun _ => []) rfl 0 0
      [] [⟨7, 7⟩, ⟨1, 2⟩, ⟨3, 4⟩] (by simp) hdlen hout⟩

/-! ### Claim C10 -/

/-- Counterexample to claim C10 as stated: with no airport control points
at all (empty original and target arrays, so the zero-displacement premise
and the distance premise are both vacuously true), the grid point
`(40, 40)` of the mesh over a `41 × 41` viewport is not returned at its
original coordinates: the inverse-distance weight sum is zero and the JS
loop computes `0 / 0` (`NaN`), modelled as `0 / 0 = 0` over the reals —
under either semantics the point does not keep its coordinates. -/
theorem deformMesh_zero_displacement_counterexample :
    ((createMesh [] ⟨41, 41⟩ none fun _ => []).points.getD 6 default).type =
      MeshPointType.grid ∧
    (deformMesh (createMesh [] ⟨41, 41⟩ none fun _ => []) [] [])[6]? ≠
      some ⟨((createMesh [] ⟨41, 41⟩ none fun _ => []).points.getD 6 default).x,
            ((createMesh [] ⟨41, 41⟩ none fun _ => []).points.getD 6
              default).y⟩ := by
  constructor
  · rfl
  · intro h
    rw [show (deformMesh (createMesh [] ⟨41, 41⟩ none fun _ => []) [] [])[6]? =
        some ⟨0 / 0, 0 / 0⟩ from rfl] at h
    rw [show ((createMesh [] ⟨41, 41⟩ none fun _ => []).points.getD 6
        default).x = ((40 : ℕ) : ℝ) from rfl] at h
    simp only [Option.some_inj, Pt.mk.injEq] at h
    have h1 := h.1
    norm_num at h1

/-- Claim C10 (amended): zero displacement yields the identity deformation
provided at least one airport control point exists.  If the same
non-empty position array is used for both originals and targets (zero
displacement) and it agrees with the mesh's airports, then `deformMesh`
returns every airport point, every boundary point, and every grid point
at distance at least `1` from all airport control points at exactly its
original coordinates.  The amendment adds the non-emptiness requirement,
forced by the counterexample: with zero airports the inverse-distance
weight sum is zero and a grid point does not keep its coordinates. -/
theorem deformMesh_zero_displacement (airports : List Airport) (bounds : Bounds)
    (isInsideUS : Option (ℝ → ℝ → Bool))
    (delaunayFrom : List MeshPoint → List (ℕ × ℕ × ℕ))
    (airportOriginals : List Pt) (j : ℕ)
    (hne : airportOriginals ≠ [])
    (horig : ∀ k, ∀ hk : k < airports.length,
      airportOriginals.getD k ⟨0, 0⟩ = ⟨(airports[k]).x, (airports[k]).y⟩)
    (hj : j < (createMesh airports bounds isInsideUS delaunayFrom).points.length)
    (hcase :
      ((createMesh airports bounds isInsideUS delaunayFrom).points.getD j
          default).type = MeshPointType.airport ∨
      ((createMesh airports bounds isInsideUS delaunayFrom).points.getD j
          default).type = MeshPointType.boundary ∨
      (((createMesh airports bounds isInsideUS delaunayFrom).points.getD j
          default).type = MeshPointType.grid ∧
        ∀ q ∈ airportOriginals, 1 ≤ hypot
          (q.x - ((createMesh airports bounds isInsideUS
            delaunayFrom).points.getD j default).x)
          (q.y - ((createMesh airports bounds isInsideUS
            delaunayFrom).points.getD j default).y))) :
    (deformMesh (createMesh airports bounds isInsideUS delaunayFrom)
        airportOriginals airportOriginals)[j]? =
      some ⟨((createMesh airports bounds isInsideUS delaunayFrom).points.getD j
          default).x,
        ((createMesh airports bounds isInsideUS delaunayFrom).points.getD j
          default).y⟩ := by
  have hP : (createMesh airports bounds isInsideUS delaunayFrom).points.getD j
      default = (createMesh airports bounds isInsideUS delaunayFrom).points[j] := by
    rw [List.getD_eq_getElem?_getD, List.getElem?_eq_getElem hj, Option.getD_some]
  rw [hP] at hcase ⊢
  simp only [deformMesh]
  rw [List.getElem?_map, List.getElem?_eq_getElem hj]
  simp only [Option.map_some']
  rcases hcase with hty | hty | ⟨hty, hfar⟩
  · have hja : j < airports.length :=
      createMesh_airport_type_lt airports bounds isInsideUS delaunayFrom j hj hty
    have hget := createMesh_getElem_airport airports bounds isInsideUS
      delaunayFrom j hja
    have hpj : (createMesh airports bounds isInsideUS delaunayFrom).points[j] =
        ⟨(airports[j]).x, (airports[j]).y, .airport, j, (airports[j]).code⟩ := by
      have h2 := List.getElem?_eq_getElem hj
      rw [hget] at h2
      exact (Option.some_inj.mp h2).symm
    simp only [hpj]
    rw [horig j hja]
  · simp only [hty]
  · simp only [hty]
    rw [interpolatePosition_identity
      ⟨((createMesh airports bounds isInsideUS delaunayFrom).points[j]).x,
       ((createMesh airports bounds isInsideUS delaunayFrom).points[j]).y⟩
      airportOriginals CONFIG.rubberSheet.interpolationPower hne hfar]

/-- Witness for the amended claim C10: one airport at `(5,5)` on a `0 × 0`
viewport with originals equal to targets; the boundary point at index `1`
keeps its coordinates. -/
theorem deformMesh_zero_displacement_witness :
    ([⟨5, 5⟩] : List Pt) ≠ [] ∧
    1 < (createMesh [⟨5, 5, "AAA"⟩] ⟨0, 0⟩ none fun _ => []).points.length ∧
    ((createMesh [⟨5, 5, "AAA"⟩] ⟨0, 0⟩ none fun _ => []).points.getD 1
      default).type = MeshPointType.boundary ∧
    (deformMesh (createMesh [⟨5, 5, "AAA"⟩] ⟨0, 0⟩ none fun _ => [])
        [⟨5, 5⟩] [⟨5, 5⟩])[1]? =
      some ⟨((createMesh [⟨5, 5, "AAA"⟩] ⟨0, 0⟩ none fun _ => []).points.getD 1
          default).x,
        ((createMesh [⟨5, 5, "AAA"⟩] ⟨0, 0⟩ none fun _ => []).points.getD 1
          default).y⟩ := by
  have hj : 1 < (createMesh [⟨5, 5, "AAA"⟩] ⟨0, 0⟩ none
      fun _ => []).points.length := by
    rw [show (createMesh [⟨5, 5, "AAA"⟩] ⟨0, 0⟩ none
      fun _ => []).points.length = 3 from rfl]
    norm_num
  have horig : ∀ k, ∀ hk : k < ([⟨5, 5, "AAA"⟩] : List Airport).length,
      ([⟨5, 5⟩] : List Pt).getD k ⟨0, 0⟩ =
        ⟨(([⟨5, 5, "AAA"⟩] : List Airport)[k]).x,
         (([⟨5, 5, "AAA"⟩] : List Airport)[k]).y⟩ := by
    intro k hk
    have hk0 : k = 0 := by
      simp only [List.length_cons, List.length_nil] at hk
      omega
    subst hk0
    rfl
  exact ⟨by simp, hj, rfl,
    deformMesh_zero_displacement [⟨5, 5, "AAA"⟩] ⟨0, 0⟩ none (fun _ => [])
      [⟨5, 5⟩] 1 (by simp) horig hj (Or.inr (Or.inl rfl))⟩

end AsThePlaneFlies
